import Mathlib

/-!
Verification of the gantt-json2excel layout engine (src/index.ts).

Dates are modelled at day precision as integers counting days since
1970-01-01 (the Unix epoch), matching the date library's behaviour on the
date-only ISO strings the engine consumes: parsing yields a day number,
diff-in-days is integer subtraction, and add/subtract days is integer
addition.  Calendar accessors (month, year, day-of-month, days-in-month)
are computed with the standard Gregorian civil-from-days conversion.
-/

namespace Gantt

/-- Gregorian leap-year test. -/
def isLeapYear (y : Int) : Bool :=
  y % 4 == 0 && (y % 100 != 0 || y % 400 == 0)

/-- Number of days in month `m` (1..12) of year `y`. -/
def daysInMonth (y m : Int) : Int :=
  if m = 2 then (if isLeapYear y then 29 else 28)
  else if m = 4 ∨ m = 6 ∨ m = 9 ∨ m = 11 then 30
  else 31

/-- A Gregorian calendar date. -/
structure CivilDate where
  year : Int
  month : Int
  day : Int
deriving DecidableEq, Repr

/-- Convert a day number (days since 1970-01-01) to a civil date. -/
def civilOfDay (z : Int) : CivilDate :=
  let zd := z + 719468
  let era := Int.fdiv zd 146097
  let doe := zd - era * 146097
  let yoe := Int.fdiv (doe - Int.fdiv doe 1460 + Int.fdiv doe 36524 - Int.fdiv doe 146096) 365
  let y := yoe + era * 400
  let doy := doe - (365 * yoe + Int.fdiv yoe 4 - Int.fdiv yoe 100)
  let mp := Int.fdiv (5 * doy + 2) 153
  let d := doy - Int.fdiv (153 * mp + 2) 5 + 1
  let m := mp + (if mp < 10 then 3 else -9)
  ⟨if m ≤ 2 then y + 1 else y, m, d⟩

/-- Convert a civil date to a day number (days since 1970-01-01). -/
def dayOfCivil (y m d : Int) : Int :=
  let yy := if m ≤ 2 then y - 1 else y
  let era := Int.fdiv yy 400
  let yoe := yy - era * 400
  let doy := Int.fdiv (153 * (if m > 2 then m - 3 else m + 9) + 2) 5 + d - 1
  let doe := yoe * 365 + Int.fdiv yoe 4 - Int.fdiv yoe 100 + doy
  era * 146097 + doe - 719468

/-- The (month, year) pair of a day number, as compared by the banner scan. -/
def monthYear (z : Int) : Int × Int :=
  let c := civilOfDay z
  (c.month, c.year)

/-- `moment(d).date()`: the day-of-month of a day number. -/
def dateOf (z : Int) : Int := (civilOfDay z).day

/-- `moment(d).daysInMonth()`: days in the month containing the day number. -/
def daysInMonthOf (z : Int) : Int :=
  let c := civilOfDay z
  daysInMonth c.year c.month

/-- JS `x || d` on an optional number: `undefined` and `0` are falsy. -/
def jsOrInt (v : Option Int) (d : Int) : Int :=
  match v with
  | none => d
  | some x => if x = 0 then d else x

/-- JS `s || d` on an optional string: `undefined` and `""` are falsy. -/
def jsOrStr (v : Option String) (d : String) : String :=
  match v with
  | none => d
  | some s => if s = "" then d else s

/-- A Gantt task (interface GSK_GANTT_TASK); `start`/`end` are the parsed
dates as day numbers, `color` the optional ARGB string. -/
structure GSK_GANTT_TASK where
  task : String
  start : Int
  «end» : Int
  color : Option String
deriving DecidableEq, Repr

/-- Layout options (interface GSK_GANTT_OPTIONS). -/
structure GSK_GANTT_OPTIONS where
  leftPadding : Option Int := none
  rightPadding : Option Int := none
  minDaysForMonth : Option Int := none
  defaultColor : Option String := none
  language : Option String := none
  borderStyle : Option String := none
deriving DecidableEq, Repr

/-- One sheet of input (interface GSK_SHEET_DETAILS). -/
structure GSK_SHEET_DETAILS where
  sheetName : String
  title : Option String := none
  subTitle : Option String := none
  data : List GSK_GANTT_TASK
deriving DecidableEq, Repr

/-- The in-place normalization performed inside the reduce: if
`start > end` the two fields are swapped and written back onto the record
(the code writes them back as ISO strings of the same instants). -/
def normalizeTask (t : GSK_GANTT_TASK) : GSK_GANTT_TASK :=
  if t.start > t.«end» then { t with start := t.«end», «end» := t.start } else t

/-- One step of the min/max reduce over the task list (with the in-line
swap of an inverted task, as in the source's reduce callback). -/
def limitsStep (acc : Int × Int) (row : GSK_GANTT_TASK) : Int × Int :=
  let s := if row.start > row.«end» then row.«end» else row.start
  let e := if row.start > row.«end» then row.start else row.«end»
  (if s < acc.1 then s else acc.1, if e > acc.2 then e else acc.2)

/-- `data.reduce(...)` with seed taken from the first task's raw
(unswapped) `start`/`end`; the fold visits every task, the first included. -/
def limitsOf : List GSK_GANTT_TASK → Option (Int × Int)
  | [] => none
  | t0 :: rest => some ((t0 :: rest).foldl limitsStep (t0.start, t0.«end»))

/-- The computed date window of a sheet. -/
structure DateWindow where
  min : Int
  max : Int
deriving DecidableEq, Repr

/-- Date-window resolution: reduce to raw limits, apply left/right padding,
then widen each edge whose month has fewer than `minDaysForMonth` visible
days.  Defaults come from the `||` fallbacks in the source. -/
def resolveWindow (data : List GSK_GANTT_TASK) (options : GSK_GANTT_OPTIONS) :
    Option DateWindow :=
  match limitsOf data with
  | none => none
  | some mm =>
    let m0 := mm.1
    let mx0 := mm.2
    let leftPadding := jsOrInt options.leftPadding 0
    let rightPadding := jsOrInt options.rightPadding 0
    let minDaysForMonth := jsOrInt options.minDaysForMonth 5
    let minD := m0 - leftPadding
    let maxD := mx0 + rightPadding
    let noOfDaysInLeftSide := daysInMonthOf minD - dateOf minD
    let minD' := if noOfDaysInLeftSide < minDaysForMonth then
        minD - (minDaysForMonth - noOfDaysInLeftSide) else minD
    let noOfDaysInRightSide := dateOf maxD
    let maxD' := if noOfDaysInRightSide < minDaysForMonth then
        maxD + (minDaysForMonth - noOfDaysInRightSide) else maxD
    some ⟨minD', maxD'⟩

/-- `noOfDays = diff(max, min, "days") + 1`. -/
def noOfDays (w : DateWindow) : Int := w.max - w.min + 1

/-! ### Task-bar placement -/

/-- The fill color of a task's bar:
`row.color?.argb || options?.defaultColor || "FF0000"`. -/
def barColor (row : GSK_GANTT_TASK) (options : GSK_GANTT_OPTIONS) : String :=
  jsOrStr row.color (jsOrStr options.defaultColor "FF0000")

/-- `startDiff = diff(row.start, limits.min, "days")` (0-indexed day offset,
i.e. the day-column index of the bar's first cell). -/
def startColumn (w : DateWindow) (row : GSK_GANTT_TASK) : Int := row.start - w.min

/-- `endDiff = diff(row.end, limits.min, "days")`. -/
def endColumn (w : DateWindow) (row : GSK_GANTT_TASK) : Int := row.«end» - w.min

/-- The fill directives emitted by the loop
`for (j = startDiff; j <= endDiff; j++)`: one `(day-column, color)` pair per
iteration.  When `endDiff < startDiff` the loop body never runs. -/
def barFills (w : DateWindow) (options : GSK_GANTT_OPTIONS) (row : GSK_GANTT_TASK) :
    List (Int × String) :=
  (List.range (endColumn w row - startColumn w row + 1).toNat).map
    (fun k : Nat => (startColumn w row + (k : Int), barColor row options))

/-! ### Border writes on a bar's row

Each `cell.border = {...}` assignment in the source replaces the cell's whole
border object, so the last write to a cell wins.  A border side is `some style`
when the written object mentions it and `none` otherwise. -/

/-- A border object as assigned to `cell.border`. -/
structure BorderSpec where
  top : Option String
  left : Option String
  bottom : Option String
  right : Option String
deriving DecidableEq, Repr

/-- The ordered border writes one task's bar performs on its row, keyed by
day-column: the fill loop writes `{top, bottom}` on every column of the span,
then the left-edge rule writes `{top, left, bottom}` on `startDiff` and the
right-edge rule writes `{top, bottom, right}` on `endDiff`. -/
def barBorderWrites (bs : String) (s e : Int) : List (Int × BorderSpec) :=
  ((List.range (e - s + 1).toNat).map
      fun k => (s + k, ⟨some bs, none, some bs, none⟩))
    ++ [(s, ⟨some bs, some bs, some bs, none⟩),
        (e, ⟨some bs, none, some bs, some bs⟩)]

/-- The final border of a day-column after a sequence of whole-object
assignments: the last write to that column, if any. -/
def lastWrite (writes : List (Int × BorderSpec)) (c : Int) : Option BorderSpec :=
  writes.foldl (fun acc wr => if wr.1 = c then some wr.2 else acc) none

/-! ### Month-banner scan -/

/-- One step of the banner scan at day-offset `i`: emit a marker and advance
the cursor whenever the day's (month, year) differs from the cursor. -/
def bannerStep (minD : Int) (st : (Int × Int) × List Nat) (i : Nat) :
    (Int × Int) × List Nat :=
  let my := monthYear (minD + i)
  if my ≠ st.1 then (my, st.2 ++ [i]) else st

/-- The left-to-right scan of the `n` day-columns, cursor initialized to
`moment(new Date(0))`'s (month, year) — the Unix epoch, i.e. January 1970. -/
def bannerScan (minD : Int) (n : Nat) : (Int × Int) × List Nat :=
  (List.range n).foldl (bannerStep minD) (monthYear 0, [])

/-- The day-offsets at which a month-banner label ("MMM YYYY" of that day)
is written. -/
def bannerMarkers (minD : Int) (n : Nat) : List Nat := (bannerScan minD n).2

/-- The month boundaries of a window, stated directly: offset 0 qualifies
exactly when the window's first day is not in the epoch's month (January
1970), and a later offset qualifies exactly when its day starts a new month
relative to the previous day.  Used to characterize `bannerMarkers`. -/
def boundaryOffsets (minD : Int) (n : Nat) : List Nat :=
  (List.range n).filter (fun i =>
    if i = 0 then decide (monthYear minD ≠ monthYear 0)
    else decide (monthYear (minD + (i : Int)) ≠ monthYear (minD + (i : Int) - 1)))

/-! ### Sheet naming -/

/-- The whitespace class of the JS regex escape in `[^a-zA-Z0-9\s_]`. -/
def jsWhitespace (c : Char) : Bool :=
  c = ' ' || c = '\t' || c = '\n' || c = '\r' ||
  c.val == 11 || c.val == 12 || c.val == 0xa0 || c.val == 0x1680 ||
  (0x2000 ≤ c.val && c.val ≤ 0x200a) || c.val == 0x2028 || c.val == 0x2029 ||
  c.val == 0x202f || c.val == 0x205f || c.val == 0x3000 || c.val == 0xfeff

/-- A character kept by `replace(/[^a-zA-Z0-9\s_]/g, "")`. -/
def keepChar (c : Char) : Bool :=
  c.isAlphanum || c = '_' || jsWhitespace c

/-- `(inSheet.sheetName || "Sheet")`, stripped of characters outside
alphanumeric/whitespace/underscore, truncated to 25 characters. -/
def sanitizeSheetName (name : String) : String :=
  String.mk ((((if name = "" then "Sheet" else name).toList).filter keepChar).take 25)

/-- The de-duplication loop
`while (workbook.getWorksheet(sheetName)) sheetName += "_" + i++;`
with the workbook's existing names as `taken`.  Fuel bounds the iterations;
`taken.length + 1` iterations always suffice (each retry lengthens the name). -/
def dedupGo (taken : List String) : String → Nat → Nat → String
  | name, _, 0 => name
  | name, i, fuel + 1 =>
    if name ∈ taken then dedupGo taken (name ++ "_" ++ toString i) (i + 1) fuel
    else name

/-- De-duplicate a sanitized sheet name against the already-emitted names. -/
def dedupName (taken : List String) (name : String) : String :=
  dedupGo taken name 1 (taken.length + 1)

/-- The worksheet names emitted for a list of raw sheet names, in order. -/
def emitNames (names : List String) : List String :=
  names.foldl (fun acc nm => acc ++ [dedupName acc (sanitizeSheetName nm)]) []

/-! ### Title/subtitle assembly -/

/-- A coarse tag for a worksheet row: the title row, the subtitle row, the
structural blank row, or the n-th row of the grid block (banner row, header
row, task rows). -/
inductive RowTag where
  | titleRow : RowTag
  | subTitleRow : RowTag
  | blankRow : RowTag
  | gridRow : Nat → RowTag
deriving DecidableEq, Repr

/-- A worksheet row with the font set on its first cell, if any
(`(bold, size)`). -/
structure SheetRow where
  tag : RowTag
  font : Option (Bool × Nat) := none
deriving DecidableEq, Repr

/-- `sheet.insertRow(pos+1, r)` as an operation on the 0-indexed row list. -/
def insertAt (r : SheetRow) : Nat → List SheetRow → List SheetRow
  | 0, rows => r :: rows
  | _ + 1, [] => [r]
  | n + 1, x :: rows => x :: insertAt r n rows

/-- Set the first-cell font of the row at 0-indexed position `n`. -/
def setFont (f : Bool × Nat) : Nat → List SheetRow → List SheetRow
  | _, [] => []
  | 0, r :: rs => { r with font := some f } :: rs
  | n + 1, r :: rs => r :: setFont f n rs

/-- The title/subtitle block assembly at the end of per-sheet processing:
insert a blank row at row 1 when a title or subtitle exists; insert the title
at row 1 (bold 16); insert the subtitle at row 2 (bold 14). -/
def assembleTitleRows (title subTitle : Option String) (grid : List SheetRow) :
    List SheetRow :=
  let rows := grid
  let rows := if title.isSome || subTitle.isSome then
      insertAt ⟨RowTag.blankRow, none⟩ 0 rows else rows
  let rows := if title.isSome then
      setFont (true, 16) 0 (insertAt ⟨RowTag.titleRow, none⟩ 0 rows) else rows
  let rows := if subTitle.isSome then
      setFont (true, 14) 1 (insertAt ⟨RowTag.subTitleRow, none⟩ 1 rows) else rows
  rows

/-! ### Per-sheet layout and top-level orchestration -/

/-- The grid plan computed for one sheet. -/
structure SheetLayout where
  name : String
  window : DateWindow
  tasks : List GSK_GANTT_TASK
  markers : List Nat
  rows : List SheetRow
deriving DecidableEq, Repr

/-- Lay out one sheet: resolve its window (the reduce also normalizes the
task records in place, so downstream steps see the normalized data), pick a
unique worksheet name, place banner markers, and assemble the rows. -/
def layoutSheet (options : GSK_GANTT_OPTIONS) (takenNames : List String)
    (inSheet : GSK_SHEET_DETAILS) : Option SheetLayout :=
  match resolveWindow inSheet.data options with
  | none => none
  | some w =>
    let nm := dedupName takenNames (sanitizeSheetName inSheet.sheetName)
    let nd := inSheet.data.map normalizeTask
    let grid := (List.range (2 + nd.length)).map
      (fun n => { tag := RowTag.gridRow n, font := none : SheetRow })
    some { name := nm
           window := w
           tasks := nd
           markers := bannerMarkers w.min (noOfDays w).toNat
           rows := assembleTitleRows inSheet.title inSheet.subTitle grid }

/-- One step of per-sheet processing: a sheet with an empty task list is
silently skipped (the callback returns early); otherwise its layout is
appended to the workbook. -/
def processStep (options : GSK_GANTT_OPTIONS) (acc : List SheetLayout)
    (s : GSK_SHEET_DETAILS) : List SheetLayout :=
  if s.data.isEmpty then acc
  else match layoutSheet options (acc.map SheetLayout.name) s with
    | none => acc
    | some l => acc ++ [l]

/-- Process the sheets in order, silently skipping sheets with an empty task
list; each worksheet name is de-duplicated against the names emitted so far. -/
def processSheets (options : GSK_GANTT_OPTIONS) (sheets : List GSK_SHEET_DETAILS) :
    List SheetLayout :=
  sheets.foldl (processStep options) []

/-- The public result (interface GSK_GANTT_OUTPUT), with the buffer type
abstracted. -/
structure GSK_GANTT_OUTPUT (β : Type) where
  buffer : Option β
  returnCode : Nat
  errorMessage : Option String
deriving DecidableEq, Repr

/-- `ganttToExcel`: return code 1 (no buffer) when `inSheets` is null or
empty; otherwise lay out the non-empty sheets and serialize them.  The body
runs inside a try/catch, so a failing serialization yields return code 2 with
the error's message, and the call never throws; `serialize` abstracts the
external spreadsheet sink's `writeBuffer`. -/
def ganttToExcel {β : Type} (serialize : List SheetLayout → Except String β)
    (inSheets : Option (List GSK_SHEET_DETAILS)) (options : GSK_GANTT_OPTIONS) :
    GSK_GANTT_OUTPUT β :=
  match inSheets with
  | none => ⟨none, 1, some "No data provided."⟩
  | some sheets =>
    if sheets.isEmpty then ⟨none, 1, some "No data provided."⟩
    else
      match serialize (processSheets options sheets) with
      | Except.ok b => ⟨some b, 0, none⟩
      | Except.error msg => ⟨none, 2, some msg⟩

/-! ## Helper lemmas -/

theorem normalizeTask_start_le (t : GSK_GANTT_TASK) :
    (normalizeTask t).start ≤ (normalizeTask t).«end» := by
  unfold normalizeTask
  split
  next h => simpa using le_of_lt h
  next h => omega

theorem normalizeTask_task_eq (t : GSK_GANTT_TASK) :
    (normalizeTask t).task = t.task := by
  unfold normalizeTask
  split <;> rfl

theorem normalizeTask_color_eq (t : GSK_GANTT_TASK) :
    (normalizeTask t).color = t.color := by
  unfold normalizeTask
  split <;> rfl

theorem limitsStep_fst_le (acc : Int × Int) (t : GSK_GANTT_TASK) :
    (limitsStep acc t).1 ≤ acc.1 := by
  unfold limitsStep
  split_ifs <;> (try simp) <;> omega

theorem limitsStep_snd_ge (acc : Int × Int) (t : GSK_GANTT_TASK) :
    acc.2 ≤ (limitsStep acc t).2 := by
  unfold limitsStep
  split_ifs <;> (try simp) <;> omega

theorem limitsStep_le_nstart (acc : Int × Int) (t : GSK_GANTT_TASK) :
    (limitsStep acc t).1 ≤ (normalizeTask t).start := by
  unfold limitsStep normalizeTask
  split_ifs <;> (try simp) <;> omega

theorem limitsStep_ge_nend (acc : Int × Int) (t : GSK_GANTT_TASK) :
    (normalizeTask t).«end» ≤ (limitsStep acc t).2 := by
  unfold limitsStep normalizeTask
  split_ifs <;> (try simp) <;> omega

theorem foldl_limitsStep_monotone (l : List GSK_GANTT_TASK) :
    ∀ acc : Int × Int,
      (l.foldl limitsStep acc).1 ≤ acc.1 ∧ acc.2 ≤ (l.foldl limitsStep acc).2 := by
  induction l with
  | nil => intro acc; simp
  | cons a l ih =>
    intro acc
    simp only [List.foldl_cons]
    have h1 := limitsStep_fst_le acc a
    have h2 := limitsStep_snd_ge acc a
    have h3 := ih (limitsStep acc a)
    exact ⟨le_trans h3.1 h1, le_trans h2 h3.2⟩

theorem foldl_limitsStep_mem (l : List GSK_GANTT_TASK) (t : GSK_GANTT_TASK)
    (ht : t ∈ l) :
    ∀ acc : Int × Int,
      (l.foldl limitsStep acc).1 ≤ (normalizeTask t).start ∧
      (normalizeTask t).«end» ≤ (l.foldl limitsStep acc).2 := by
  induction l with
  | nil => cases ht
  | cons a l ih =>
    intro acc
    simp only [List.foldl_cons]
    rcases List.mem_cons.mp ht with h | h
    · subst h
      have m := foldl_limitsStep_monotone l (limitsStep acc t)
      have s1 := limitsStep_le_nstart acc t
      have s2 := limitsStep_ge_nend acc t
      exact ⟨le_trans m.1 s1, le_trans s2 m.2⟩
    · exact ih h (limitsStep acc a)

theorem jsOrInt_nonneg (v : Option Int) (d : Int)
    (h : ∀ x, v = some x → 0 ≤ x) (hd : 0 ≤ d) : 0 ≤ jsOrInt v d := by
  cases v with
  | none => exact hd
  | some x =>
    show 0 ≤ if x = 0 then d else x
    split_ifs with hx
    · exact hd
    · exact h x rfl

/-- Core window facts shared by the window and bar-placement claims: for a
non-empty sheet with non-negative effective paddings, the window computes,
it bounds every normalized task, and it spans at least one day. -/
theorem resolveWindow_core (data : List GSK_GANTT_TASK) (options : GSK_GANTT_OPTIONS)
    (hne : data ≠ [])
    (hl : 0 ≤ jsOrInt options.leftPadding 0)
    (hr : 0 ≤ jsOrInt options.rightPadding 0) :
    (resolveWindow data options).isSome = true ∧
    ∀ w, resolveWindow data options = some w →
      (∀ t ∈ data, w.min ≤ (normalizeTask t).start ∧ (normalizeTask t).«end» ≤ w.max) ∧
      1 ≤ noOfDays w := by
  match data with
  | [] => exact absurd rfl hne
  | t0 :: rest =>
    have hlim : limitsOf (t0 :: rest) =
        some (List.foldl limitsStep (limitsStep (t0.start, t0.«end») t0) rest) := rfl
    have hmem : ∀ t ∈ t0 :: rest,
        (List.foldl limitsStep (limitsStep (t0.start, t0.«end») t0) rest).1 ≤
          (normalizeTask t).start ∧
        (normalizeTask t).«end» ≤
          (List.foldl limitsStep (limitsStep (t0.start, t0.«end») t0) rest).2 := by
      intro t ht
      have h := foldl_limitsStep_mem (t0 :: rest) t ht (t0.start, t0.«end»)
      simpa [List.foldl_cons] using h
    have hmm : (List.foldl limitsStep (limitsStep (t0.start, t0.«end») t0) rest).1 ≤
        (List.foldl limitsStep (limitsStep (t0.start, t0.«end») t0) rest).2 := by
      have h0 := hmem t0 (List.mem_cons_self t0 rest)
      have hn := normalizeTask_start_le t0
      omega
    constructor
    · simp [resolveWindow, hlim]
    · intro w hw
      simp only [resolveWindow, hlim] at hw
      injection hw with hw2
      subst hw2
      constructor
      · intro t ht
        have hb := hmem t ht
        constructor
        · dsimp only
          split_ifs <;> omega
        · dsimp only
          split_ifs <;> omega
      · unfold noOfDays
        dsimp only
        split_ifs <;> omega

theorem limitsStep_normalize (acc : Int × Int) (t : GSK_GANTT_TASK) :
    limitsStep acc (normalizeTask t) = limitsStep acc t := by
  unfold limitsStep normalizeTask
  split_ifs <;> simp_all [Prod.mk.injEq]
  omega

theorem limitsStep_seed (t : GSK_GANTT_TASK) :
    limitsStep ((normalizeTask t).start, (normalizeTask t).«end») t =
      limitsStep (t.start, t.«end») t := by
  unfold limitsStep normalizeTask
  split_ifs <;> simp_all [Prod.mk.injEq]

/-- The window reduce sees exactly the normalized (swapped-in-place) data:
computing limits of the raw list equals computing them after normalization. -/
theorem limitsOf_map_normalize (data : List GSK_GANTT_TASK) :
    limitsOf (data.map normalizeTask) = limitsOf data := by
  cases data with
  | nil => rfl
  | cons t0 rest =>
    simp only [List.map_cons, limitsOf]
    congr 1
    rw [List.foldl_cons, List.foldl_cons, limitsStep_normalize, limitsStep_seed,
      List.foldl_map]
    have hfun : (fun (a : Int × Int) x => limitsStep a (normalizeTask x)) = limitsStep := by
      funext a x
      exact limitsStep_normalize a x
    rw [hfun]

/-- Downstream rendering (rows, bars) of a laid-out sheet is computed from
the normalized task records. -/
theorem layoutSheet_tasks (options : GSK_GANTT_OPTIONS) (tk : List String)
    (s : GSK_SHEET_DETAILS) (L : SheetLayout)
    (hL : layoutSheet options tk s = some L) :
    L.tasks = s.data.map normalizeTask := by
  unfold layoutSheet at hL
  cases hrw : resolveWindow s.data options with
  | none => rw [hrw] at hL; exact Option.noConfusion hL
  | some w =>
    rw [hrw] at hL
    injection hL with h2
    subst h2
    rfl

/-! ## Claim theorems -/

/-- C1: for every sheet with a non-empty task list, laid out with
non-negative `leftPadding`, `rightPadding` and `minDaysForMonth`, the computed
date window satisfies `min ≤ task.start` and `task.end ≤ max` for every
(normalized) task, and `noOfDays = (max − min) + 1 ≥ 1`. -/
theorem window_invariant_noOfDays (data : List GSK_GANTT_TASK)
    (options : GSK_GANTT_OPTIONS) (hne : data ≠ [])
    (hl : ∀ v, options.leftPadding = some v → 0 ≤ v)
    (hr : ∀ v, options.rightPadding = some v → 0 ≤ v)
    (_hm : ∀ v, options.minDaysForMonth = some v → 0 ≤ v) :
    (resolveWindow data options).isSome = true ∧
    ∀ w, resolveWindow data options = some w →
      (∀ t ∈ data, w.min ≤ (normalizeTask t).start ∧ (normalizeTask t).«end» ≤ w.max) ∧
      1 ≤ noOfDays w :=
  resolveWindow_core data options hne
    (jsOrInt_nonneg _ _ hl (by norm_num))
    (jsOrInt_nonneg _ _ hr (by norm_num))

theorem window_invariant_noOfDays_witness :
    (resolveWindow [⟨"Task 1", dayOfCivil 2024 1 6, dayOfCivil 2024 1 10, none⟩]
        {}).isSome = true ∧
    1 ≤ noOfDays ⟨dayOfCivil 2024 1 6, dayOfCivil 2024 1 10⟩ := by
  have h := window_invariant_noOfDays
    [⟨"Task 1", dayOfCivil 2024 1 6, dayOfCivil 2024 1 10, none⟩] {}
    (by simp) (fun v hv => nomatch hv) (fun v hv => nomatch hv) (fun v hv => nomatch hv)
  exact ⟨h.1, (h.2 ⟨dayOfCivil 2024 1 6, dayOfCivil 2024 1 10⟩ (by decide)).2⟩

/-- C2: a task whose parsed start is strictly after its parsed end is swapped
and written back onto the record, so rendered `start ≤ end`; the sheet window
is the same whether computed on raw or normalized data, and a laid-out sheet's
rendered tasks are the normalized records. -/
theorem normalizeTask_swap_propagates (t : GSK_GANTT_TASK) (h : t.«end» < t.start) :
    normalizeTask t = { task := t.task, start := t.«end», «end» := t.start, color := t.color } ∧
    (normalizeTask t).start ≤ (normalizeTask t).«end» ∧
    (∀ data : List GSK_GANTT_TASK, limitsOf (data.map normalizeTask) = limitsOf data) ∧
    (∀ (options : GSK_GANTT_OPTIONS) (tk : List String) (s : GSK_SHEET_DETAILS)
        (L : SheetLayout), layoutSheet options tk s = some L →
      L.tasks = s.data.map normalizeTask) := by
  refine ⟨?_, normalizeTask_start_le t, limitsOf_map_normalize, layoutSheet_tasks⟩
  unfold normalizeTask
  rw [if_pos h]

theorem normalizeTask_swap_propagates_witness :
    normalizeTask ⟨"B", 5, 2, none⟩ = ⟨"B", 2, 5, none⟩ :=
  (normalizeTask_swap_propagates ⟨"B", 5, 2, none⟩ (by decide)).1

/-- C3: for every task of a laid-out sheet (with non-negative paddings),
`startColumn`/`endColumn` are the day offsets of the normalized task from the
window's `min`, both non-negative with `endColumn ≥ startColumn`; the fill
loop colors exactly the inclusive range `[startColumn, endColumn]`, each cell
with `row.color?.argb || options.defaultColor || "FF0000"`; and for the task
2024-01-06..2024-01-10 in a window starting 2024-01-01, `startColumn = 5`,
`endColumn = 9`, an inclusive span of 5 columns. -/
theorem barFills_span_and_color (data : List GSK_GANTT_TASK)
    (options : GSK_GANTT_OPTIONS) (w : DateWindow) (t : GSK_GANTT_TASK)
    (hw : resolveWindow data options = some w) (ht : t ∈ data)
    (hl : ∀ v, options.leftPadding = some v → 0 ≤ v)
    (hr : ∀ v, options.rightPadding = some v → 0 ≤ v) :
    0 ≤ startColumn w (normalizeTask t) ∧
    startColumn w (normalizeTask t) ≤ endColumn w (normalizeTask t) ∧
    (∀ j : Int, (j, barColor (normalizeTask t) options) ∈ barFills w options (normalizeTask t) ↔
      startColumn w (normalizeTask t) ≤ j ∧ j ≤ endColumn w (normalizeTask t)) ∧
    (∀ p ∈ barFills w options (normalizeTask t), p.2 = barColor (normalizeTask t) options) ∧
    startColumn ⟨dayOfCivil 2024 1 1, dayOfCivil 2024 1 31⟩
      ⟨"T", dayOfCivil 2024 1 6, dayOfCivil 2024 1 10, none⟩ = 5 ∧
    endColumn ⟨dayOfCivil 2024 1 1, dayOfCivil 2024 1 31⟩
      ⟨"T", dayOfCivil 2024 1 6, dayOfCivil 2024 1 10, none⟩ = 9 ∧
    (barFills ⟨dayOfCivil 2024 1 1, dayOfCivil 2024 1 31⟩ {}
      ⟨"T", dayOfCivil 2024 1 6, dayOfCivil 2024 1 10, none⟩).length = 5 := by
  have core := resolveWindow_core data options (List.ne_nil_of_mem ht)
    (jsOrInt_nonneg _ _ hl (by norm_num)) (jsOrInt_nonneg _ _ hr (by norm_num))
  have hb := (core.2 w hw).1 t ht
  have hse := normalizeTask_start_le t
  refine ⟨by unfold startColumn; omega, by unfold startColumn endColumn; omega,
    ?_, ?_, by decide, by decide, by decide⟩
  · intro j
    unfold barFills
    have h1 : startColumn w (normalizeTask t) = (normalizeTask t).start - w.min := rfl
    have h2 : endColumn w (normalizeTask t) = (normalizeTask t).«end» - w.min := rfl
    constructor
    · intro hmem
      obtain ⟨k, hk, hkj⟩ := List.mem_map.mp hmem
      have hk' := List.mem_range.mp hk
      have hj' : startColumn w (normalizeTask t) + (k : Int) = j :=
        congrArg Prod.fst hkj
      omega
    · intro hj
      refine List.mem_map.mpr
        ⟨(j - startColumn w (normalizeTask t)).toNat, List.mem_range.mpr ?_, ?_⟩
      · omega
      · exact Prod.ext_iff.mpr ⟨by dsimp only; omega, rfl⟩
  · intro p hp
    unfold barFills at hp
    simp only [List.mem_map, List.mem_range] at hp
    obtain ⟨k, _, rfl⟩ := hp
    rfl

theorem barFills_span_and_color_witness :
    0 ≤ startColumn ⟨dayOfCivil 2024 1 6, dayOfCivil 2024 1 10⟩
      (normalizeTask ⟨"T", dayOfCivil 2024 1 6, dayOfCivil 2024 1 10, none⟩) ∧
    startColumn ⟨dayOfCivil 2024 1 1, dayOfCivil 2024 1 31⟩
      ⟨"T", dayOfCivil 2024 1 6, dayOfCivil 2024 1 10, none⟩ = 5 := by
  have h := barFills_span_and_color
    [⟨"T", dayOfCivil 2024 1 6, dayOfCivil 2024 1 10, none⟩] {}
    ⟨dayOfCivil 2024 1 6, dayOfCivil 2024 1 10⟩
    ⟨"T", dayOfCivil 2024 1 6, dayOfCivil 2024 1 10, none⟩
    (by decide) (List.mem_cons_self _ _)
    (fun v hv => nomatch hv) (fun v hv => nomatch hv)
  exact ⟨h.1, h.2.2.2.2.1⟩

/-- C10: a task record whose parsed start is already ≤ its parsed end is left
completely unchanged by the in-place normalization, and in every case the
`task` and `color` fields are untouched (only `start`/`end` are ever
rewritten). -/
theorem normalizeTask_frame (t : GSK_GANTT_TASK) :
    (t.start ≤ t.«end» → normalizeTask t = t) ∧
    (normalizeTask t).task = t.task ∧ (normalizeTask t).color = t.color := by
  refine ⟨?_, normalizeTask_task_eq t, normalizeTask_color_eq t⟩
  intro hle
  unfold normalizeTask
  rw [if_neg (by omega)]

theorem normalizeTask_frame_witness :
    normalizeTask ⟨"A", 3, 7, some "FFFF00"⟩ = ⟨"A", 3, 7, some "FFFF00"⟩ :=
  (normalizeTask_frame ⟨"A", 3, 7, some "FFFF00"⟩).1 (by decide)

/-- After scanning `n + 1` columns the rolling cursor holds the (month, year)
of the last scanned day, whether or not that step emitted a marker. -/
theorem bannerScan_cursor (minD : Int) (n : Nat) :
    (bannerScan minD (n + 1)).1 = monthYear (minD + n) := by
  unfold bannerScan
  rw [List.range_succ, List.foldl_append, List.foldl_cons, List.foldl_nil]
  unfold bannerStep
  dsimp only
  split_ifs with h
  · rfl
  · exact (not_not.mp h).symm

theorem bannerScan_markers_succ (minD : Int) (n : Nat) :
    (bannerScan minD (n + 1)).2 = (bannerScan minD n).2 ++
      (if monthYear (minD + n) ≠ (bannerScan minD n).1 then [n] else []) := by
  unfold bannerScan
  rw [List.range_succ, List.foldl_append, List.foldl_cons, List.foldl_nil]
  unfold bannerStep
  dsimp only
  split_ifs with h
  · rfl
  · simp

theorem bannerMarkers_eq_boundary (minD : Int) (n : Nat) :
    bannerMarkers minD n = boundaryOffsets minD n := by
  induction n with
  | zero => rfl
  | succ n ih =>
    unfold bannerMarkers at *
    rw [bannerScan_markers_succ, ih]
    unfold boundaryOffsets
    rw [List.range_succ, List.filter_append]
    congr 1
    rw [List.filter_cons, List.filter_nil]
    cases n with
    | zero =>
      show (if monthYear (minD + 0) ≠ (bannerScan minD 0).1 then _ else _) = _
      have hc : (bannerScan minD 0).1 = monthYear 0 := rfl
      rw [hc]
      have harg : minD + ((0 : Nat) : Int) = minD := by simp
      by_cases h : monthYear minD ≠ monthYear 0
      · rw [if_pos (by simpa [harg] using h)]
        simp [h]
      · rw [if_neg (by simpa [harg] using h)]
        simp [h]
    | succ m =>
      rw [bannerScan_cursor]
      have hcast : ((m + 1 : Nat) : Int) = (m : Int) + 1 := by push_cast; ring
      have hsub : minD + ((m : Int) + 1) - 1 = minD + (m : Int) := by ring
      simp only [hcast, hsub]
      by_cases h : monthYear (minD + ((m : Int) + 1)) = monthYear (minD + (m : Int))
      · simp [h]
      · simp [h]

/-- C4 (counterexample): the banner cursor is initialized to the epoch
(January 1970), which is itself a representable date, so the window
1970-01-15 .. 1970-02-03 (20 day-columns) gets no marker at its first
day-column even though two distinct (month, year) pairs intersect it — its
only marker is at offset 17 (February 1, 1970). -/
theorem bannerMarkers_epoch_counterexample :
    bannerMarkers (dayOfCivil 1970 1 15) 20 = [17] ∧
    (0 : Nat) ∉ bannerMarkers (dayOfCivil 1970 1 15) 20 ∧
    monthYear (dayOfCivil 1970 1 15) ≠ monthYear (dayOfCivil 1970 1 15 + 17) := by
  refine ⟨by decide, by decide, by decide⟩

/-- C4 (amended): the scan emits a marker at offset `i` exactly when `i`
starts a new month relative to the previous day-column — offset 0 qualifying
exactly when the window's first day is outside the cursor's initial month,
January 1970 (the epoch), each marker labeled with that day's (month, year);
the window 2024-01-30 .. 2024-02-02 gets exactly two markers, at its first
day-column (Jan 2024) and at the column of Feb 1 (offset 2, Feb 2024). -/
theorem bannerMarkers_characterization :
    (∀ (minD : Int) (n : Nat), bannerMarkers minD n = boundaryOffsets minD n) ∧
    bannerMarkers (dayOfCivil 2024 1 30) 4 = [0, 2] ∧
    monthYear (dayOfCivil 2024 1 30) = (1, 2024) ∧
    monthYear (dayOfCivil 2024 1 30 + 2) = (2, 2024) := by
  refine ⟨bannerMarkers_eq_boundary, by decide, by decide, by decide⟩

/-- C5 (counterexample): a single-day bar (startColumn = endColumn) does NOT
end with all four borders: each `cell.border = {...}` assignment replaces the
whole border object and the right-edge rule runs last, so the final border of
the single cell is top/bottom/right with no left side. -/
theorem singleDayBar_missing_left_border :
    lastWrite (barBorderWrites "thick" 0 0) 0 =
      some ⟨some "thick", none, some "thick", some "thick"⟩ ∧
    lastWrite (barBorderWrites "thick" 0 0) 0 ≠
      some ⟨some "thick", some "thick", some "thick", some "thick"⟩ := by
  refine ⟨by decide, by decide⟩

/-- C5 (amended): for every border style and every single-day bar, the last
write to the bar's only column is the right-edge rule's object, so the cell's
final border has top, bottom and right in the configured style and no left
border (the left-edge rule's write is overwritten, not merged). -/
theorem singleDayBar_final_border (bs : String) (s : Int) :
    lastWrite (barBorderWrites bs s s) s =
      some ⟨some bs, none, some bs, some bs⟩ := by
  unfold barBorderWrites lastWrite
  have h : (s - s + 1).toNat = 1 := by omega
  rw [h]
  have hr : List.range 1 = [0] := rfl
  rw [hr]
  simp

/-- C6 (counterexample): `minDaysForMonth: 0` is a legal value of the
int ≥ 0 option, but the `||` fallback coerces it to the default 5, so for the
single task 2024-01-01 .. 2024-01-03 with zero padding the window is widened
on the right to 2024-01-05 (noOfDays 5) instead of staying at
[2024-01-01, 2024-01-03] (noOfDays 3) as the claim requires. -/
theorem minDaysForMonth_zero_counterexample :
    resolveWindow [⟨"T", dayOfCivil 2024 1 1, dayOfCivil 2024 1 3, none⟩]
        { leftPadding := some 0, rightPadding := some 0, minDaysForMonth := some 0 } =
      some ⟨dayOfCivil 2024 1 1, dayOfCivil 2024 1 5⟩ ∧
    resolveWindow [⟨"T", dayOfCivil 2024 1 1, dayOfCivil 2024 1 3, none⟩]
        { leftPadding := some 0, rightPadding := some 0, minDaysForMonth := some 0 } ≠
      some ⟨dayOfCivil 2024 1 1, dayOfCivil 2024 1 3⟩ := by
  refine ⟨by decide, by decide⟩

/-- C6 (amended): an explicit `minDaysForMonth = 0` is treated as absent by
the `||` fallback — the effective value is the default 5, so edge-month
widening may still adjust the window; the spec's example is nonetheless
reproduced, because for the single task 2024-01-01 .. 2024-01-05 with zero
padding neither edge triggers widening at 5, and `noOfDays = 5`. -/
theorem minDaysForMonth_zero_coerced (options : GSK_GANTT_OPTIONS)
    (h : options.minDaysForMonth = some 0) :
    jsOrInt options.minDaysForMonth 5 = 5 ∧
    resolveWindow [⟨"T", dayOfCivil 2024 1 1, dayOfCivil 2024 1 5, none⟩]
        { leftPadding := some 0, rightPadding := some 0, minDaysForMonth := some 0 } =
      some ⟨dayOfCivil 2024 1 1, dayOfCivil 2024 1 5⟩ ∧
    noOfDays ⟨dayOfCivil 2024 1 1, dayOfCivil 2024 1 5⟩ = 5 := by
  refine ⟨by rw [h]; rfl, by decide, by decide⟩

theorem minDaysForMonth_zero_coerced_witness :
    jsOrInt (GSK_GANTT_OPTIONS.minDaysForMonth
      { minDaysForMonth := some 0 }) 5 = 5 ∧
    noOfDays ⟨dayOfCivil 2024 1 1, dayOfCivil 2024 1 5⟩ = 5 :=
  ⟨(minDaysForMonth_zero_coerced { minDaysForMonth := some 0 } rfl).1,
   (minDaysForMonth_zero_coerced { minDaysForMonth := some 0 } rfl).2.2⟩

theorem layoutSheet_isSome_tasks (options : GSK_GANTT_OPTIONS) (tk : List String)
    (s : GSK_SHEET_DETAILS) (h : s.data ≠ []) :
    ∃ L, layoutSheet options tk s = some L ∧ L.tasks = s.data.map normalizeTask := by
  have hw : ∃ w, resolveWindow s.data options = some w := by
    cases hd : s.data with
    | nil => exact absurd hd h
    | cons t0 rest => exact ⟨_, rfl⟩
  obtain ⟨w, hw⟩ := hw
  unfold layoutSheet
  rw [hw]
  exact ⟨_, rfl, rfl⟩

theorem processSheets_go (options : GSK_GANTT_OPTIONS)
    (l : List GSK_SHEET_DETAILS) :
    ∀ acc : List SheetLayout,
      (l.foldl (processStep options) acc).map SheetLayout.tasks =
        acc.map SheetLayout.tasks ++
          (l.filter (fun s => !s.data.isEmpty)).map
            (fun s => s.data.map normalizeTask) := by
  induction l with
  | nil => intro acc; simp
  | cons a l ih =>
    intro acc
    simp only [List.foldl_cons]
    by_cases ha : a.data.isEmpty = true
    · have hstep : processStep options acc a = acc := by
        unfold processStep
        rw [if_pos ha]
      rw [hstep, ih acc, List.filter_cons, if_neg (by simp [ha])]
    · have hne : a.data ≠ [] := fun hnil => ha (by rw [hnil]; rfl)
      obtain ⟨L, hL, hT⟩ :=
        layoutSheet_isSome_tasks options (acc.map SheetLayout.name) a hne
      have hstep : processStep options acc a = acc ++ [L] := by
        unfold processStep
        rw [if_neg ha, hL]
      rw [hstep, ih (acc ++ [L]), List.filter_cons,
        if_pos (by simpa using ha)]
      simp [hT]

/-- C7: the public call returns returnCode 1 with no buffer exactly when
`sheets` is null or empty; otherwise a successful serialization gives
returnCode 0 with the buffer and a failure gives returnCode 2 with the error
message (the body runs under try/catch, so nothing escapes as an exception);
the serialized layouts cover exactly the sheets with a non-empty task list,
in order, empty-task sheets being silently skipped. -/
theorem ganttToExcel_returnCodes {β : Type}
    (serialize : List SheetLayout → Except String β)
    (inSheets : Option (List GSK_SHEET_DETAILS)) (options : GSK_GANTT_OPTIONS) :
    ((ganttToExcel serialize inSheets options).returnCode = 1 ∧
        (ganttToExcel serialize inSheets options).buffer = none ↔
      inSheets = none ∨ inSheets = some []) ∧
    (∀ sheets, inSheets = some sheets → sheets ≠ [] →
      (∀ b, serialize (processSheets options sheets) = Except.ok b →
        ganttToExcel serialize inSheets options = ⟨some b, 0, none⟩) ∧
      (∀ m, serialize (processSheets options sheets) = Except.error m →
        ganttToExcel serialize inSheets options = ⟨none, 2, some m⟩)) ∧
    (∀ sheets : List GSK_SHEET_DETAILS,
      (processSheets options sheets).map SheetLayout.tasks =
        (sheets.filter (fun s => !s.data.isEmpty)).map
          (fun s => s.data.map normalizeTask)) := by
  refine ⟨?_, ?_, ?_⟩
  · cases inSheets with
    | none => simp [ganttToExcel]
    | some sheets =>
      by_cases h : sheets.isEmpty = true
      · obtain rfl := List.isEmpty_iff.mp h
        simp [ganttToExcel]
      · have hne : sheets ≠ [] := fun hnil => h (by rw [hnil]; rfl)
        cases hs : serialize (processSheets options sheets) with
        | ok b => simp [ganttToExcel, h, hs, hne]
        | error m => simp [ganttToExcel, h, hs, hne]
  · intro sheets hin hne
    subst hin
    have hempty : sheets.isEmpty = false := by
      cases sheets with
      | nil => exact absurd rfl hne
      | cons a l => rfl
    constructor
    · intro b hb
      simp [ganttToExcel, hempty, hb]
    · intro m hm
      simp [ganttToExcel, hempty, hm]
  · intro sheets
    simpa using processSheets_go options sheets []

theorem ganttToExcel_returnCodes_witness :
    ganttToExcel (fun ls => Except.ok ls)
        (some [{ sheetName := "S", data := [⟨"T", 0, 1, none⟩] }]) {} =
      ⟨some (processSheets {} [{ sheetName := "S", data := [⟨"T", 0, 1, none⟩] }]),
        0, none⟩ :=
  ((ganttToExcel_returnCodes (fun ls => Except.ok ls)
      (some [{ sheetName := "S", data := [⟨"T", 0, 1, none⟩] }]) {}).2.1
    [{ sheetName := "S", data := [⟨"T", 0, 1, none⟩] }] rfl
    (by simp)).1
    (processSheets {} [{ sheetName := "S", data := [⟨"T", 0, 1, none⟩] }]) rfl

/-- C8 (counterexample): the de-duplication loop appends its suffix to the
*current* candidate, so suffixes accumulate across retries: three sheets all
named "A" are emitted as "A", "A_1" and "A_1_2" — not "A_2" as the
smallest-unused-N rule would give. -/
theorem dedup_cumulative_counterexample :
    emitNames ["A", "A", "A"] = ["A", "A_1", "A_1_2"] ∧
    emitNames ["A", "A", "A"] ≠ ["A", "A_1", "A_2"] := by
  refine ⟨by decide, by decide⟩

/-- C8 (amended): each emitted worksheet name is the sheet's name stripped to
alphanumerics/whitespace/underscore and truncated to 25 characters, then
de-duplicated by repeatedly appending `_i` (i = 1, 2, … per retry) to the
current candidate until it is unused, suffixes accumulating across retries: a
fresh sanitized name is emitted unchanged, a single collision appends `_1`,
and two sheets both sanitizing to "Sample_Gantt" are emitted as
"Sample_Gantt" and "Sample_Gantt_1". -/
theorem dedupName_spec :
    (∀ (taken : List String) (name : String), name ∉ taken →
      dedupName taken name = name) ∧
    (∀ (taken : List String) (name : String), name ∈ taken →
      (name ++ "_1") ∉ taken → dedupName taken name = name ++ "_1") ∧
    sanitizeSheetName "Sample_Gantt?" = "Sample_Gantt" ∧
    emitNames ["Sample_Gantt", "Sample_Gantt?"] =
      ["Sample_Gantt", "Sample_Gantt_1"] := by
  refine ⟨?_, ?_, by decide, by decide⟩
  · intro taken name h
    unfold dedupName
    unfold dedupGo
    rw [if_neg h]
  · intro taken name hmem hnot
    cases taken with
    | nil => cases hmem
    | cons a ts =>
      have happ : name ++ "_" ++ toString 1 = name ++ "_1" := by
        rw [String.append_assoc]
        rfl
      show dedupGo (a :: ts) name 1 ((a :: ts).length + 1) = name ++ "_1"
      have hlen : (a :: ts).length + 1 = ts.length + 1 + 1 := by simp
      rw [hlen]
      unfold dedupGo
      rw [if_pos hmem, happ]
      unfold dedupGo
      rw [if_neg hnot]

theorem dedupName_spec_witness :
    dedupName ["A"] "B" = "B" ∧ dedupName ["A"] "A" = "A" ++ "_1" :=
  ⟨dedupName_spec.1 ["A"] "B" (by decide),
   dedupName_spec.2.1 ["A"] "A" (by decide) (by decide)⟩

/-- C9 (counterexample): for a sheet with a subtitle but no title, the blank
row is inserted *above* the subtitle, so the subtitle directly abuts the grid
instead of being separated from it by the blank row. -/
theorem subtitleOnly_separator_counterexample :
    assembleTitleRows none (some "Q1") [⟨RowTag.gridRow 0, none⟩] =
      [⟨RowTag.blankRow, none⟩, ⟨RowTag.subTitleRow, some (true, 14)⟩,
        ⟨RowTag.gridRow 0, none⟩] ∧
    assembleTitleRows none (some "Q1") [⟨RowTag.gridRow 0, none⟩] ≠
      [⟨RowTag.subTitleRow, some (true, 14)⟩, ⟨RowTag.blankRow, none⟩,
        ⟨RowTag.gridRow 0, none⟩] := by
  refine ⟨rfl, by decide⟩

/-- C9 (amended): if a title is present, the title row (bold 16) — and the
subtitle row (bold 14) when also present — sit above one blank separator row
followed by the grid; with only a subtitle present, the blank row is inserted
above the subtitle row, which therefore abuts the grid; with neither, no
extra rows are inserted. -/
theorem assembleTitleRows_cases (ts ss : String) (grid : List SheetRow) :
    assembleTitleRows (some ts) (some ss) grid =
      ⟨RowTag.titleRow, some (true, 16)⟩ :: ⟨RowTag.subTitleRow, some (true, 14)⟩ ::
        ⟨RowTag.blankRow, none⟩ :: grid ∧
    assembleTitleRows (some ts) none grid =
      ⟨RowTag.titleRow, some (true, 16)⟩ :: ⟨RowTag.blankRow, none⟩ :: grid ∧
    assembleTitleRows none (some ss) grid =
      ⟨RowTag.blankRow, none⟩ :: ⟨RowTag.subTitleRow, some (true, 14)⟩ :: grid ∧
    assembleTitleRows none none grid = grid :=
  ⟨rfl, rfl, rfl, rfl⟩

end Gantt
